import Mathlib

/-!
# engine/db/sqldb

A shallow embedding of the relational client of `engine/db/sqldb`:

* `decorator.go`: the clause `Decorator` (`Where`, `GroupBy`, `OrderBy`, `Limit`);
* `sqldb.go`: `ExecSQL`, `Select`, `Insert`, `Update`, `Delete` and `checkArgs`.

Go strings are Lean strings, Go `int` is `Int`, an `interface{}` is a `Value`,
a `*Decorator` is an `Option Decorator` (`none` is the nil pointer) and an
`error` is an `Option String` (`none` is the nil error).  A method of `SqlDB`
yields a `Run`: how the call ended (a normal return or a run-time fault) and
the statements it handed to the driver.
-/

namespace Sqldb

/-! ## Go values and reflection -/

/-- The kinds of `reflect.Kind` met by the package. -/
inductive Kind
  | Bool
  | Int
  | String
  | Slice
  deriving DecidableEq, Repr

/-- A run-time type: its name and its kind, as seen through `reflect.Type`. -/
structure GoType where
  name : String
  kind : Kind
  deriving DecidableEq, Repr

/-- A dynamic value carried by an `interface{}` argument. -/
inductive Value
  /-- The nil interface value. -/
  | nil
  /-- A `bool`. -/
  | bool (b : Bool)
  /-- An `int`. -/
  | int (n : Int)
  /-- A value whose run-time type is `string`. -/
  | str (s : String)
  /-- A `[]byte`. -/
  | bytes (b : List Nat)
  /-- A value of a user-defined type `type T string`. -/
  | namedString (typeName : String) (s : String)
  /-- A value of a user-defined type `type T int`. -/
  | namedInt (typeName : String) (n : Int)
  deriving DecidableEq, Repr

/-- The Go `error`: `none` is nil, `some msg` an error with that message. -/
abbrev GoError := Option String

/-- How a call ends: it returns, or it faults (a Go run-time panic). -/
inductive Outcome (α : Type)
  | ret (a : α)
  | fault (msg : String)
  deriving DecidableEq, Repr

/-- The run-time message of a nil dereference. -/
def nilDereference : String :=
  "runtime error: invalid memory address or nil pointer dereference"

/-- The run-time message of a failed single-valued type assertion. -/
def badAssertion : String :=
  "interface conversion: interface {} is not string"

/-- The run-time message of `strings.Repeat` with a negative count. -/
def negativeRepeat : String := "strings: negative Repeat count"

/-- The function `reflect.TypeOf`: the dynamic type, nil for the nil interface. -/
def TypeOf : Value → Option GoType
  | .nil => none
  | .bool _ => some ⟨"bool", .Bool⟩
  | .int _ => some ⟨"int", .Int⟩
  | .str _ => some ⟨"string", .String⟩
  | .bytes _ => some ⟨"[]uint8", .Slice⟩
  | .namedString t _ => some ⟨t, .String⟩
  | .namedInt t _ => some ⟨t, .Int⟩

/-- The type assertion `val.(string)`: it holds only for the type `string`. -/
def assertString : Value → Option String
  | .str s => some s
  | _ => none

/-! ## The `strings` and `fmt` functions used -/

/-- Whether `sub` occurs in `s` as a contiguous run. -/
def hasInfix : List Char → List Char → Bool
  | [], sub => sub.isEmpty
  | c :: cs, sub => sub.isPrefixOf (c :: cs) || hasInfix cs sub

/-- The function `strings.Contains`. -/
def Contains (s substr : String) : Bool := hasInfix s.data substr.data

/-- The function `unicode.ToLower` on one rune: ASCII letters are handled in
place, any other rune goes through the Unicode case table `tbl`. -/
def lowerRune (tbl : Char → Char) (r : Char) : Char :=
  if r.toNat ≤ 127 then
    if 65 ≤ r.toNat ∧ r.toNat ≤ 90 then Char.ofNat (r.toNat + 32) else r
  else tbl r

/-- The function `strings.ToLower`, over the Unicode case table `tbl`. -/
def ToLower (tbl : Char → Char) (s : String) : String :=
  ⟨s.data.map (lowerRune tbl)⟩

/-- The function `strings.Join`. -/
def Join : List String → String → String
  | [], _ => ""
  | [a], _ => a
  | a :: b :: rest, sep => a ++ sep ++ Join (b :: rest) sep

/-- The string `s` written `n` times. -/
def repeatString (s : String) : Nat → String
  | 0 => ""
  | n + 1 => s ++ repeatString s n

/-- The function `strings.Repeat`: it faults on a negative count (`none`). -/
def Repeat (s : String) (count : Int) : Option String :=
  if count < 0 then none else some (repeatString s count.toNat)

/-- The formatting `fmt.Sprintf("%d", n)`: a minus sign for a negative number,
then the decimal digits. -/
def formatInt : Int → String
  | Int.ofNat m => Nat.repr m
  | Int.negSucc m => "-" ++ Nat.repr (m + 1)

/-! ## decorator.go -/

/-- The struct `Decorator`. -/
structure Decorator where
  decorator : String
  params : List Value
  deriving DecidableEq, Repr

/-- The method `Decorator.Where`. -/
def Decorator.Where (d : Decorator) (cond : String) (params : List Value) : Decorator :=
  { decorator := d.decorator ++ (" WHERE " ++ cond ++ " "),
    params := d.params ++ params }

/-- The method `Decorator.GroupBy`. -/
def Decorator.GroupBy (d : Decorator) (column : String) : Decorator :=
  { d with decorator := d.decorator ++ (" GROUP BY " ++ column ++ " ") }

/-- The method `Decorator.OrderBy`. -/
def Decorator.OrderBy (d : Decorator) (column : String) (asc : Bool) : Decorator :=
  let d1 : Decorator := { d with decorator := d.decorator ++ (" ORDER BY " ++ column ++ " ") }
  if asc then { d1 with decorator := d1.decorator ++ "ASC " }
  else { d1 with decorator := d1.decorator ++ "DESC " }

/-- The method `Decorator.Limit`. -/
def Decorator.Limit (d : Decorator) (limit1 limit2 : Int) : Decorator :=
  let d1 : Decorator := { d with decorator := d.decorator ++ (" LIMIT " ++ formatInt limit1) }
  if limit2 > 0 then { d1 with decorator := d1.decorator ++ (", " ++ formatInt limit2) }
  else d1

/-- A fresh decorator, `&Decorator{decorator: ""}`. -/
def Decorator.fresh : Decorator := { decorator := "", params := [] }

/-- One chaining call on a decorator. -/
inductive Call
  | Where (cond : String) (params : List Value)
  | GroupBy (column : String)
  | OrderBy (column : String) (asc : Bool)
  | Limit (limit1 limit2 : Int)
  deriving DecidableEq, Repr

/-- Apply one chaining call. -/
def Decorator.call (d : Decorator) : Call → Decorator
  | .Where cond params => d.Where cond params
  | .GroupBy column => d.GroupBy column
  | .OrderBy column asc => d.OrderBy column asc
  | .Limit limit1 limit2 => d.Limit limit1 limit2

/-- Apply a sequence of chaining calls, first call first. -/
def Decorator.calls (d : Decorator) (cs : List Call) : Decorator :=
  cs.foldl Decorator.call d

/-! ## sqldb.go -/

/-- The struct `SqlDBConfig`. -/
structure SqlDBConfig where
  Username : String
  Password : String
  Host : String
  Port : Int
  Database : String
  MaxOpenConns : Int
  MaxIdleConns : Int
  CheckArgs : Bool

/-- What `sql.Result` reports. -/
structure SqlResult where
  lastInsertId : Int
  rowsAffected : Int
  deriving DecidableEq, Repr

/-- A statement as handed to the driver: its text and its bound params. -/
structure Statement where
  text : String
  params : List Value
  deriving DecidableEq, Repr

/-- One result row: column names with their values. -/
abbrev Row := List (String × Value)

/-- The embedded `*sqlx.DB`: the pre-existing driver, as the two calls used. -/
structure Driver where
  Exec : String → List Value → Option SqlResult × GoError
  Queryx : String → List Value → List Row × GoError

/-- The struct `SqlDB`. -/
structure SqlDB where
  DB : Driver
  config : SqlDBConfig
  connectstring : String
  dbtype : String

/-- A call on a `SqlDB`: how it ended and the statements the driver received. -/
structure Run (α : Type) where
  outcome : Outcome α
  calls : List Statement

/-- The error value `fmt.Errorf("error arg is %+v", retVal)`. -/
def errorArg (retVal : String) : GoError := some ("error arg is " ++ retVal)

/-- The method `SqlDB.checkArgs`, over the Unicode case table `tbl`. -/
def checkArgs (tbl : Char → Char) : List Value → Outcome GoError
  | [] => .ret none
  | val :: rest =>
    match TypeOf val with
    | none => .fault nilDereference
    | some t =>
      if t.kind = Kind.String then
        match assertString val with
        | none => .fault badAssertion
        | some retVal =>
          if Contains retVal "-" = true then .ret (errorArg retVal)
          else if Contains retVal "#" = true then .ret (errorArg retVal)
          else if Contains retVal "&" = true then .ret (errorArg retVal)
          else if Contains retVal "=" = true then .ret (errorArg retVal)
          else if Contains retVal "%" = true then .ret (errorArg retVal)
          else if Contains retVal "\x27" = true then .ret (errorArg retVal)
          else if Contains (ToLower tbl retVal) "delete " = true then .ret (errorArg retVal)
          else if Contains (ToLower tbl retVal) "truncate " = true then .ret (errorArg retVal)
          else if Contains (ToLower tbl retVal) " or " = true then .ret (errorArg retVal)
          else if Contains (ToLower tbl retVal) "from " = true then .ret (errorArg retVal)
          else if Contains (ToLower tbl retVal) "set " = true then .ret (errorArg retVal)
          else checkArgs tbl rest
      else checkArgs tbl rest

/-- The method `SqlDB.ExecSQL`. -/
def ExecSQL (tbl : Char → Char) (db : SqlDB) (strSql : String) (args : List Value) :
    Run (Option SqlResult × GoError) :=
  if db.config.CheckArgs then
    match checkArgs tbl args with
    | .fault msg => ⟨.fault msg, []⟩
    | .ret (some e) => ⟨.ret (none, some e), []⟩
    | .ret none => ⟨.ret (db.DB.Exec strSql args), [⟨strSql, args⟩]⟩
  else ⟨.ret (db.DB.Exec strSql args), [⟨strSql, args⟩]⟩

/-- What `dest interface{}` can be, as `reflect.ValueOf(dest)` sees it. -/
inductive Dest (α : Type)
  /-- The nil interface. -/
  | nilIface
  /-- A value that is not a pointer. -/
  | notPtr
  /-- A nil pointer: its `Elem()` is the zero `reflect.Value`. -/
  | nilPtr
  /-- A pointer to something that is not a slice. -/
  | ptrToOther
  /-- A pointer to a slice variable that holds the elements `s`. -/
  | ptrToSlice (s : List α)
  deriving DecidableEq, Repr

/-- The element type of the destination: its zero value and how `StructScan`
fills an element from a row. -/
structure ElemType (α : Type) where
  zero : α
  StructScan : Row → α → α × GoError

/-- The function `reflect.Append`: it returns a new slice value, one element
longer; the slice value it is given, and the variable that holds it, stay as
they are. -/
def reflectAppend {α : Type} (slice : List α) (elem : α) : List α := slice ++ [elem]

/-- The loop `for rows.Next()` of `Select`: `slice` is the local variable,
rebound by `slice = reflect.Append(slice, elem)`.  It yields the error and the
final value of the local `slice`. -/
def scanRows {α : Type} (et : ElemType α) : List Row → List α → GoError × List α
  | [], slice => (none, slice)
  | row :: rest, slice =>
    match et.StructScan row et.zero with
    | (elem, none) => scanRows et rest (reflectAppend slice elem)
    | (_, some e) => (some e, slice)

/-- The error of `Select` on a destination that is not a pointer to a slice. -/
def destError : GoError := some "dest必须是指向切片的指针"

/-- The method `SqlDB.Select`.  It returns the error together with the
destination as the caller sees it afterwards: the slice built by the loop
lives in the local `slice` and is never stored back through `dv`. -/
def Select {α : Type} (db : SqlDB) (et : ElemType α) (dest : Dest α) (tableName : String)
    (columns : List String) (decorator : Option Decorator) : Run (GoError × Dest α) :=
  match dest with
  | .ptrToSlice s =>
    let sql := "SELECT " ++ Join columns ", " ++ " FROM " ++ tableName
    match decorator with
    | none => ⟨.fault nilDereference, []⟩
    | some d =>
      let sql := sql ++ (" " ++ d.decorator)
      ⟨.ret (match db.DB.Queryx sql d.params with
          | (_, some e) => (some e, dest)
          | (rows, none) => ((scanRows et rows s).1, dest)),
        [⟨sql, d.params⟩]⟩
  | _ => ⟨.ret (destError, dest), []⟩

/-- The method `SqlDB.Insert`. -/
def Insert (db : SqlDB) (tableName : String) (columns : List String) (values : List Value)
    (decorator : Option Decorator) : Run (Option SqlResult × GoError) :=
  if columns.length ≠ values.length then
    ⟨.ret (none, some "columns and values length not equal"), []⟩
  else
    let sql := "INSERT INTO " ++ tableName ++ " (" ++ Join columns ", " ++ ") VALUES ("
    match Repeat "?, " ((columns.length : Int) - 1) with
    | none => ⟨.fault negativeRepeat, []⟩
    | some r =>
      let sql := sql ++ (r ++ "?)")
      match decorator with
      | some d =>
        ⟨.ret (db.DB.Exec (sql ++ (" " ++ d.decorator)) (values ++ d.params)),
          [⟨sql ++ (" " ++ d.decorator), values ++ d.params⟩]⟩
      | none => ⟨.ret (db.DB.Exec sql values), [⟨sql, values⟩]⟩

/-- The method `SqlDB.Update`. -/
def Update (db : SqlDB) (tableName : String) (columns : List String) (values : List Value)
    (decorator : Option Decorator) : Run (Option SqlResult × GoError) :=
  if columns.length ≠ values.length then
    ⟨.ret (none, some "columns and values length not equal"), []⟩
  else
    let sql := "UPDATE " ++ tableName ++ " SET " ++ Join columns "=?, " ++ "=? "
    match decorator with
    | some d =>
      ⟨.ret (db.DB.Exec (sql ++ (" " ++ d.decorator)) (values ++ d.params)),
        [⟨sql ++ (" " ++ d.decorator), values ++ d.params⟩]⟩
    | none => ⟨.ret (db.DB.Exec sql values), [⟨sql, values⟩]⟩

/-- The method `SqlDB.Delete`. -/
def Delete (db : SqlDB) (tableName : String) (decorator : Option Decorator) :
    Run (Option SqlResult × GoError) :=
  let sql := "DELETE FROM " ++ tableName
  match decorator with
  | some d =>
    let sql := sql ++ (" " ++ d.decorator) ++ ";"
    ⟨.ret (db.DB.Exec sql d.params), [⟨sql, d.params⟩]⟩
  | none => ⟨.fault nilDereference, []⟩

/-! ## Sample data -/

/-- A driver that executes every statement and finds the rows `rows`. -/
def sampleDriver (rows : List Row) : Driver :=
  { Exec := fun _ _ => (some ⟨0, 1⟩, none),
    Queryx := fun _ _ => (rows, none) }

/-- The configuration of `openDB` in the tests, with `CheckArgs` as given. -/
def sampleConfig (check : Bool) : SqlDBConfig :=
  { Username := "root", Password := "666666", Host := "localhost", Port := 3306,
    Database := "test", MaxOpenConns := 100, MaxIdleConns := 10, CheckArgs := check }

/-- A connected `SqlDB` over `sampleDriver`. -/
def sampleDB (check : Bool) (rows : List Row) : SqlDB :=
  { DB := sampleDriver rows, config := sampleConfig check,
    connectstring := "root:666666@tcp(localhost:3306)/test", dbtype := "mysql" }

/-- The struct `Test` of `TestSQLBuilder_Select`. -/
structure Test where
  Id : Int
  Value : String
  deriving DecidableEq, Repr

/-- The column `name` of a row, when present. -/
def Row.column (row : Row) (name : String) : Option Value :=
  (row.find? (fun p => p.1 == name)).map Prod.snd

/-- The element type `Test`: `StructScan` binds `id` and `value`. -/
def testElem : ElemType Test :=
  { zero := ⟨0, ""⟩,
    StructScan := fun row e =>
      match Row.column row "id", Row.column row "value" with
      | some (Value.int n), some (Value.str v) => (⟨n, v⟩, none)
      | _, _ => (e, some "missing destination name") }

/-- The decorator of `TestSQLBuilder_Select`: `Where("id =?", 1)`. -/
def whereId : Decorator := Decorator.fresh.Where "id =?" [Value.int 1]

/-- The decorator of the example: `Where("id = ?", 1)` then `Limit(10, 0)`. -/
def whereLimit : Decorator := (Decorator.fresh.Where "id = ?" [Value.int 1]).Limit 10 0

/-- One row of the table `test`. -/
def sampleRow : Row := [("id", Value.int 1), ("value", Value.str "name")]

/-! ## What a nil decorator stands for -/

/-- The clause text a decorator adds to a statement: none for nil. -/
def clauseText : Option Decorator → String
  | none => ""
  | some d => " " ++ d.decorator

/-- The params a decorator adds to a statement: none for nil. -/
def clauseParams : Option Decorator → List Value
  | none => []
  | some d => d.params

/-- The number of placeholders `?` in a text. -/
def placeholders (s : String) : Nat := s.data.count '?'

/-- The text of an `INSERT`, in the words of the specification: the columns,
then one placeholder per column, then the decorator's clause. -/
def insertText (tableName : String) (columns : List String) (decorator : Option Decorator) :
    String :=
  "INSERT INTO " ++ tableName ++ " (" ++ Join columns ", " ++ ") VALUES (" ++
    Join (List.replicate columns.length "?") ", " ++ ")" ++ clauseText decorator

/-- The text of an `UPDATE`, in the words of the specification: each column
followed by `=?`, then the decorator's clause. -/
def updateText (tableName : String) (columns : List String) (decorator : Option Decorator) :
    String :=
  "UPDATE " ++ tableName ++ " SET " ++ Join (columns.map (fun c => c ++ "=?")) ", " ++ " " ++
    clauseText decorator

/-! ## The clause fragments, in the words of the specification -/

/-- The strings of a list, one after the other. -/
def concatAll : List String → String
  | [] => ""
  | a :: rest => a ++ concatAll rest

/-- The clause fragment a chaining call appends. -/
def Call.fragment : Call → String
  | .Where cond _ => " WHERE " ++ cond ++ " "
  | .GroupBy column => " GROUP BY " ++ column ++ " "
  | .OrderBy column asc => " ORDER BY " ++ column ++ " " ++ (if asc then "ASC " else "DESC ")
  | .Limit limit1 limit2 =>
    " LIMIT " ++ formatInt limit1 ++ (if limit2 > 0 then ", " ++ formatInt limit2 else "")

/-- The params a chaining call appends: those of `Where`, none otherwise. -/
def Call.params : Call → List Value
  | .Where _ params => params
  | _ => []

/-- A call is balanced when its condition holds as many placeholders as it has
params, and a column name holds none. -/
def Call.balanced : Call → Prop
  | .Where cond params => placeholders cond = params.length
  | .GroupBy column => placeholders column = 0
  | .OrderBy column _ => placeholders column = 0
  | .Limit _ _ => True

instance (c : Call) : Decidable c.balanced := by
  cases c <;> unfold Call.balanced <;> infer_instance

/-! ## The sanitizer's denylist, in the words of the specification -/

/-- The literal substrings the sanitizer rejects. -/
def deniedLiterals : List String := ["-", "#", "&", "=", "%", "\x27"]

/-- The keywords the sanitizer rejects, whatever their case. -/
def deniedKeywords : List String := ["delete ", "truncate ", " or ", "from ", "set "]

/-- A string is denied when it contains a denied literal or, once lower-cased,
a denied keyword. -/
def denied (tbl : Char → Char) (s : String) : Prop :=
  (∃ lit ∈ deniedLiterals, lit.data <:+: s.data) ∨
    (∃ kw ∈ deniedKeywords, kw.data <:+: (ToLower tbl s).data)

instance (tbl : Char → Char) (s : String) : Decidable (denied tbl s) := by
  unfold denied; infer_instance

/-! ## Lemmas on the string functions -/

theorem hasInfix_iff (s sub : List Char) : hasInfix s sub = true ↔ sub <:+: s := by
  induction s with
  | nil => simp [hasInfix, List.isEmpty_iff]
  | cons c cs ih =>
    simp only [hasInfix, Bool.or_eq_true, ih, List.infix_cons_iff, List.isPrefixOf_iff_prefix]

theorem Contains_iff (s sub : String) : Contains s sub = true ↔ sub.data <:+: s.data :=
  hasInfix_iff s.data sub.data

theorem checkArgs_str_cons (tbl : Char → Char) (s : String) (rest : List Value) :
    checkArgs tbl (Value.str s :: rest) =
      if denied tbl s then Outcome.ret (errorArg s) else checkArgs tbl rest := by
  have hd : denied tbl s ↔
      (Contains s "-" = true ∨ Contains s "#" = true ∨ Contains s "&" = true ∨
        Contains s "=" = true ∨ Contains s "%" = true ∨ Contains s "\x27" = true) ∨
      (Contains (ToLower tbl s) "delete " = true ∨ Contains (ToLower tbl s) "truncate " = true ∨
        Contains (ToLower tbl s) " or " = true ∨ Contains (ToLower tbl s) "from " = true ∨
        Contains (ToLower tbl s) "set " = true) := by
    simp only [denied, deniedLiterals, deniedKeywords, Contains_iff, List.mem_cons,
      List.mem_singleton, exists_eq_or_imp, exists_eq_left, List.not_mem_nil, false_and,
      exists_false, or_false]
  rw [checkArgs]
  simp only [TypeOf, assertString, if_true]
  simp only [hd]
  generalize Contains s "-" = b1
  generalize Contains s "#" = b2
  generalize Contains s "&" = b3
  generalize Contains s "=" = b4
  generalize Contains s "%" = b5
  generalize Contains s "\x27" = b6
  generalize Contains (ToLower tbl s) "delete " = b7
  generalize Contains (ToLower tbl s) "truncate " = b8
  generalize Contains (ToLower tbl s) " or " = b9
  generalize Contains (ToLower tbl s) "from " = b10
  generalize Contains (ToLower tbl s) "set " = b11
  generalize checkArgs tbl rest = r
  generalize Outcome.ret (errorArg s) = x
  cases b1 <;> cases b2 <;> cases b3 <;> cases b4 <;> cases b5 <;> cases b6 <;> simp
  cases b7 <;> cases b8 <;> cases b9 <;> cases b10 <;> cases b11 <;> simp

theorem checkArgs_strings_find (tbl : Char → Char) (ss : List String) :
    checkArgs tbl (ss.map Value.str) =
      Outcome.ret ((ss.find? (fun s => decide (denied tbl s))).bind errorArg) := by
  induction ss with
  | nil => simp [checkArgs]
  | cons s rest ih =>
    rw [List.map_cons, checkArgs_str_cons, List.find?_cons]
    by_cases h : denied tbl s
    · rw [if_pos h]
      simp only [decide_eq_true h, Option.some_bind]
    · rw [if_neg h, ih]
      simp only [decide_eq_false h]

theorem ToLower_hello_world (tbl : Char → Char) :
    ToLower tbl "hello world" = "hello world" := rfl

theorem denied_id_eq_1 (tbl : Char → Char) : denied tbl "id=1" :=
  Or.inl ⟨"=", by decide, by decide⟩

theorem not_denied_hello_world (tbl : Char → Char) : ¬ denied tbl "hello world" := by
  unfold denied
  rw [ToLower_hello_world]
  decide

theorem checkArgs_nil_cons (tbl : Char → Char) (rest : List Value) :
    checkArgs tbl (Value.nil :: rest) = Outcome.fault nilDereference := by
  rw [checkArgs]; rfl

theorem checkArgs_namedString_cons (tbl : Char → Char) (t s : String) (rest : List Value) :
    checkArgs tbl (Value.namedString t s :: rest) = Outcome.fault badAssertion := by
  rw [checkArgs]; rfl

theorem checkArgs_cons_of_kind_ne (tbl : Char → Char) (v : Value) (t : GoType)
    (rest : List Value) (ht : TypeOf v = some t) (hk : t.kind ≠ Kind.String) :
    checkArgs tbl (v :: rest) = checkArgs tbl rest := by
  rw [checkArgs]
  simp only [ht, if_neg hk]

/-- When `checkArgs` returns an error, the error names a denied string argument
and no string argument before it is denied. -/
theorem checkArgs_error_first (tbl : Char → Char) (args : List Value) (e : String)
    (h : checkArgs tbl args = Outcome.ret (some e)) :
    ∃ pre s post, args = pre ++ Value.str s :: post ∧ e = "error arg is " ++ s ∧
      denied tbl s ∧ ∀ t, Value.str t ∈ pre → ¬ denied tbl t := by
  induction args with
  | nil => simp [checkArgs] at h
  | cons v rest ih =>
    have step : checkArgs tbl rest = Outcome.ret (some e) →
        ¬ (∃ t, v = Value.str t ∧ denied tbl t) →
        ∃ pre s post, v :: rest = pre ++ Value.str s :: post ∧ e = "error arg is " ++ s ∧
          denied tbl s ∧ ∀ t, Value.str t ∈ pre → ¬ denied tbl t := by
      intro hr hv
      obtain ⟨pre, s, post, hs, he, hd, hp⟩ := ih hr
      refine ⟨v :: pre, s, post, by rw [hs]; rfl, he, hd, ?_⟩
      intro t ht
      rcases List.mem_cons.mp ht with h1 | h1
      · exact fun hdt => hv ⟨t, h1.symm, hdt⟩
      · exact hp t h1
    cases v with
    | nil => rw [checkArgs_nil_cons] at h; cases h
    | namedString t s => rw [checkArgs_namedString_cons] at h; cases h
    | bool b =>
      rw [checkArgs_cons_of_kind_ne tbl (Value.bool b) ⟨"bool", Kind.Bool⟩ rest rfl (by decide)] at h
      exact step h (by rintro ⟨t, ht, -⟩; cases ht)
    | int n =>
      rw [checkArgs_cons_of_kind_ne tbl (Value.int n) ⟨"int", Kind.Int⟩ rest rfl (by decide)] at h
      exact step h (by rintro ⟨t, ht, -⟩; cases ht)
    | bytes b =>
      rw [checkArgs_cons_of_kind_ne tbl (Value.bytes b) ⟨"[]uint8", Kind.Slice⟩ rest rfl
        (by decide)] at h
      exact step h (by rintro ⟨t, ht, -⟩; cases ht)
    | namedInt t n =>
      rw [checkArgs_cons_of_kind_ne tbl (Value.namedInt t n) ⟨t, Kind.Int⟩ rest rfl
        (fun hk => by cases hk)] at h
      exact step h (by rintro ⟨t, ht, -⟩; cases ht)
    | str s =>
      rw [checkArgs_str_cons] at h
      by_cases hd : denied tbl s
      · rw [if_pos hd] at h
        refine ⟨[], s, rest, rfl, ?_, hd, by simp⟩
        simpa [errorArg] using h.symm
      · rw [if_neg hd] at h
        exact step h (by rintro ⟨t, ht, hdt⟩; cases ht; exact hd hdt)

/-- On arguments that all have a run-time type of a kind other than string,
`checkArgs` returns nil. -/
theorem checkArgs_of_kinds_ne (tbl : Char → Char) (args : List Value)
    (h : ∀ v ∈ args, ∃ t, TypeOf v = some t ∧ t.kind ≠ Kind.String) :
    checkArgs tbl args = Outcome.ret none := by
  induction args with
  | nil => rfl
  | cons v rest ih =>
    obtain ⟨t, ht, hk⟩ := h v (List.mem_cons_self v rest)
    rw [checkArgs_cons_of_kind_ne tbl v t rest ht hk]
    exact ih (fun w hw => h w (List.mem_cons_of_mem v hw))

/-! ## The sanitizer on string arguments -/

/-- C2: on a sequence of arguments that are all of run-time type string,
`checkArgs` returns (it does not fault), it returns an error exactly when some
argument is denied (contains one of the literals `-`, `#`, `&`, `=`, `%`, the
apostrophe, or lower-cased one of the keywords `delete `, `truncate `, ` or `,
`from `, `set `), and nil exactly when none is; it rejects `id=1` and accepts
`hello world`. -/
theorem checkArgs_strings_iff (tbl : Char → Char) (ss : List String) :
    ((∃ e, checkArgs tbl (ss.map Value.str) = Outcome.ret (some e)) ↔
        ∃ s ∈ ss, denied tbl s) ∧
      (checkArgs tbl (ss.map Value.str) = Outcome.ret none ↔ ¬ ∃ s ∈ ss, denied tbl s) ∧
      checkArgs tbl [Value.str "id=1"] = Outcome.ret (some "error arg is id=1") ∧
      checkArgs tbl [Value.str "hello world"] = Outcome.ret none := by
  refine ⟨?_, ?_, ?_, ?_⟩
  · rw [checkArgs_strings_find]
    constructor
    · rintro ⟨e, he⟩
      cases hf : ss.find? (fun s => decide (denied tbl s)) with
      | none => rw [hf] at he; simp at he
      | some s =>
        exact ⟨s, List.mem_of_find?_eq_some hf, by simpa using List.find?_some hf⟩
    · rintro ⟨s, hs, hd⟩
      cases hf : ss.find? (fun s => decide (denied tbl s)) with
      | none =>
        rw [List.find?_eq_none] at hf
        exact absurd hd (by simpa using hf s hs)
      | some t => exact ⟨"error arg is " ++ t, rfl⟩
  · rw [checkArgs_strings_find]
    constructor
    · rintro he ⟨s, hs, hd⟩
      cases hf : ss.find? (fun s => decide (denied tbl s)) with
      | none =>
        rw [List.find?_eq_none] at hf
        exact absurd hd (by simpa using hf s hs)
      | some t => rw [hf] at he; simp [errorArg] at he
    · intro hn
      cases hf : ss.find? (fun s => decide (denied tbl s)) with
      | none => rfl
      | some t =>
        exact absurd ⟨t, List.mem_of_find?_eq_some hf, by simpa using List.find?_some hf⟩ hn
  · rw [checkArgs_str_cons, if_pos (denied_id_eq_1 tbl)]
    rfl
  · rw [checkArgs_str_cons, if_neg (not_denied_hello_world tbl)]
    rfl

/-- C3: `checkArgs` faults on arguments that are not of run-time type string:
on the nil interface value `reflect.TypeOf(val)` is nil and `.Kind()`
dereferences it, and on a value of a user-defined type `type Name string` the
kind is `String` and the assertion `val.(string)` fails; an `int` is passed. -/
theorem checkArgs_non_string_faults (tbl : Char → Char) :
    checkArgs tbl [Value.nil] = Outcome.fault nilDereference ∧
      checkArgs tbl [Value.int 3, Value.nil] = Outcome.fault nilDereference ∧
      checkArgs tbl [Value.namedString "Name" "bob"] = Outcome.fault badAssertion ∧
      checkArgs tbl [Value.int 3] = Outcome.ret none :=
  ⟨rfl, rfl, rfl, rfl⟩

/-! ## ExecSQL -/

/-- C10: with `CheckArgs` on, when `checkArgs` returns an error `ExecSQL`
returns that error with a nil result and hands nothing to the driver, and the
error is `error arg is ` followed by the first denied string argument; with
`CheckArgs` off, or when `checkArgs` returns nil, the driver receives exactly
the given text and args and `ExecSQL` returns what the driver returns. -/
theorem ExecSQL_sanitizer (tbl : Char → Char) (db : SqlDB) (strSql : String)
    (args : List Value) :
    (db.config.CheckArgs = true → ∀ e, checkArgs tbl args = Outcome.ret (some e) →
        ExecSQL tbl db strSql args = ⟨Outcome.ret (none, some e), []⟩ ∧
        ∃ pre s post, args = pre ++ Value.str s :: post ∧ e = "error arg is " ++ s ∧
          denied tbl s ∧ ∀ t, Value.str t ∈ pre → ¬ denied tbl t) ∧
      (db.config.CheckArgs = false ∨ checkArgs tbl args = Outcome.ret none →
        ExecSQL tbl db strSql args =
          ⟨Outcome.ret (db.DB.Exec strSql args), [⟨strSql, args⟩]⟩) := by
  constructor
  · intro hc e he
    refine ⟨?_, checkArgs_error_first tbl args e he⟩
    simp only [ExecSQL, hc, if_true, he]
  · rintro (hc | hn)
    · simp [ExecSQL, hc]
    · cases hc : db.config.CheckArgs <;> simp [ExecSQL, hc, hn]

/-- Witness of C10: `id=1` is rejected behind an `int` with `CheckArgs` on, and
reaches the driver with `CheckArgs` off. -/
theorem ExecSQL_sanitizer_witness :
    ((sampleDB true []).config.CheckArgs = true ∧
      checkArgs id [Value.int 1, Value.str "id=1"] =
        Outcome.ret (some "error arg is id=1") ∧
      ExecSQL id (sampleDB true []) "UPDATE test SET value=? WHERE id=?"
          [Value.int 1, Value.str "id=1"] = ⟨Outcome.ret (none, some "error arg is id=1"), []⟩ ∧
      ∃ pre s post, [Value.int 1, Value.str "id=1"] = pre ++ Value.str s :: post ∧
        "error arg is id=1" = "error arg is " ++ s ∧ denied id s ∧
        ∀ t, Value.str t ∈ pre → ¬ denied id t) ∧
    ((sampleDB false []).config.CheckArgs = false ∧
      ExecSQL id (sampleDB false []) "UPDATE test SET value=? WHERE id=?"
          [Value.int 1, Value.str "id=1"] =
        ⟨Outcome.ret ((sampleDB false []).DB.Exec "UPDATE test SET value=? WHERE id=?"
            [Value.int 1, Value.str "id=1"]),
          [⟨"UPDATE test SET value=? WHERE id=?", [Value.int 1, Value.str "id=1"]⟩]⟩) :=
  ⟨⟨rfl, rfl,
      (ExecSQL_sanitizer id (sampleDB true []) "UPDATE test SET value=? WHERE id=?"
        [Value.int 1, Value.str "id=1"]).1 rfl "error arg is id=1" rfl⟩,
    ⟨rfl,
      (ExecSQL_sanitizer id (sampleDB false []) "UPDATE test SET value=? WHERE id=?"
        [Value.int 1, Value.str "id=1"]).2 (Or.inl rfl)⟩⟩

/-! ## Insert, Update, Delete -/

/-- C5: when `columns` and `values` differ in length, `Insert` and `Update`
return the error `columns and values length not equal` with a nil result and
hand nothing to the driver. -/
theorem Insert_Update_length_mismatch (db : SqlDB) (tableName : String)
    (columns : List String) (values : List Value) (decorator : Option Decorator)
    (h : columns.length ≠ values.length) :
    Insert db tableName columns values decorator =
        ⟨Outcome.ret (none, some "columns and values length not equal"), []⟩ ∧
      Update db tableName columns values decorator =
        ⟨Outcome.ret (none, some "columns and values length not equal"), []⟩ := by
  simp only [Insert, Update, if_pos h, and_self]

/-- Witness of C5: two columns against one value. -/
theorem Insert_Update_length_mismatch_witness :
    ["id", "value"].length ≠ [Value.int 1].length ∧
      Insert (sampleDB false []) "test" ["id", "value"] [Value.int 1] none =
        ⟨Outcome.ret (none, some "columns and values length not equal"), []⟩ ∧
      Update (sampleDB false []) "test" ["id", "value"] [Value.int 1] none =
        ⟨Outcome.ret (none, some "columns and values length not equal"), []⟩ :=
  ⟨by decide,
    Insert_Update_length_mismatch (sampleDB false []) "test" ["id", "value"] [Value.int 1] none
      (by decide)⟩

/-- C6: `Delete` with a nil decorator faults on `decorator.params` and hands
nothing to the driver, for every table. -/
theorem Delete_nil_decorator_faults (db : SqlDB) (tableName : String) :
    Delete db tableName none = ⟨Outcome.fault nilDereference, []⟩ := rfl

/-! ### The texts of Insert and Update -/

theorem repeatString_placeholders (n : Nat) :
    repeatString "?, " n ++ "?" = Join (List.replicate (n + 1) "?") ", " := by
  induction n with
  | zero => rfl
  | succ n ih =>
    have h : Join (List.replicate (n + 1 + 1) "?") ", " =
        "?" ++ ", " ++ Join (List.replicate (n + 1) "?") ", " := rfl
    rw [h, ← ih, repeatString]
    have h2 : ("?, " : String) = "?" ++ ", " := rfl
    rw [h2]
    simp only [String.append_assoc]

theorem Join_assignments (a : String) (rest : List String) :
    Join (a :: rest) "=?, " ++ "=?" = Join ((a :: rest).map (fun c => c ++ "=?")) ", " := by
  induction rest generalizing a with
  | nil => rfl
  | cons b rest ih =>
    have h1 : Join (a :: b :: rest) "=?, " = a ++ "=?, " ++ Join (b :: rest) "=?, " := rfl
    have h2 : Join ((a :: b :: rest).map (fun c => c ++ "=?")) ", " =
        (a ++ "=?") ++ ", " ++ Join ((b :: rest).map (fun c => c ++ "=?")) ", " := rfl
    have h3 : ("=?, " : String) = "=?" ++ ", " := rfl
    rw [h1, h2, ← ih b, h3]
    simp only [String.append_assoc]

/-- With at least one column and as many values, `Insert` hands the driver the
text of the specification and the values followed by the decorator's params. -/
theorem Insert_statement (db : SqlDB) (tableName : String) (columns : List String)
    (values : List Value) (decorator : Option Decorator)
    (h : columns.length = values.length) (hn : columns ≠ []) :
    Insert db tableName columns values decorator =
      ⟨Outcome.ret (db.DB.Exec (insertText tableName columns decorator)
          (values ++ clauseParams decorator)),
        [⟨insertText tableName columns decorator, values ++ clauseParams decorator⟩]⟩ := by
  obtain ⟨n, hlen⟩ : ∃ n, columns.length = n + 1 := by
    cases columns with
    | nil => exact absurd rfl hn
    | cons a rest => exact ⟨rest.length, rfl⟩
  have hr : Repeat "?, " ((columns.length : Int) - 1) = some (repeatString "?, " n) := by
    rw [hlen]
    simp [Repeat]
  have ht : ∀ d, "INSERT INTO " ++ tableName ++ " (" ++ Join columns ", " ++ ") VALUES (" ++
      (repeatString "?, " n ++ "?)") ++ clauseText d = insertText tableName columns d := by
    intro d
    have h3 : ("?)" : String) = "?" ++ ")" := rfl
    rw [insertText, hlen, ← repeatString_placeholders, h3]
    simp only [String.append_assoc]
  simp only [Insert, h, ne_eq, not_true_eq_false, if_false]
  rw [← h, hr]
  cases decorator with
  | none =>
    simp only [clauseParams, List.append_nil]
    rw [← ht none]
    simp only [clauseText, String.append_empty]
  | some d =>
    simp only [clauseParams]
    rw [← ht (some d)]
    simp only [clauseText]

/-- With at least one column and as many values, `Update` hands the driver the
text of the specification and the values followed by the decorator's params. -/
theorem Update_statement (db : SqlDB) (tableName : String) (columns : List String)
    (values : List Value) (decorator : Option Decorator)
    (h : columns.length = values.length) (hn : columns ≠ []) :
    Update db tableName columns values decorator =
      ⟨Outcome.ret (db.DB.Exec (updateText tableName columns decorator)
          (values ++ clauseParams decorator)),
        [⟨updateText tableName columns decorator, values ++ clauseParams decorator⟩]⟩ := by
  obtain ⟨a, rest, rfl⟩ : ∃ a rest, columns = a :: rest := by
    cases columns with
    | nil => exact absurd rfl hn
    | cons a rest => exact ⟨a, rest, rfl⟩
  have ht : ∀ d, "UPDATE " ++ tableName ++ " SET " ++ Join (a :: rest) "=?, " ++ "=? " ++
      clauseText d = updateText tableName (a :: rest) d := by
    intro d
    have h3 : ("=? " : String) = "=?" ++ " " := rfl
    rw [updateText, ← Join_assignments, h3]
    simp only [String.append_assoc]
  simp only [Update, h, ne_eq, not_true_eq_false, if_false]
  cases decorator with
  | none =>
    simp only [clauseParams, List.append_nil]
    rw [← ht none]
    simp only [clauseText, String.append_empty]
  | some d =>
    simp only [clauseParams]
    rw [← ht (some d)]
    simp only [clauseText]

/-- The example of the specification: two columns, two values, nil decorator. -/
theorem Insert_example (db : SqlDB) :
    Insert db "test" ["id", "value"] [Value.int 1, Value.str "name"] none =
      ⟨Outcome.ret (db.DB.Exec "INSERT INTO test (id, value) VALUES (?, ?)"
          [Value.int 1, Value.str "name"]),
        [⟨"INSERT INTO test (id, value) VALUES (?, ?)", [Value.int 1, Value.str "name"]⟩]⟩ :=
  rfl

/-- C7: with no columns and no values `Insert` faults in
`strings.Repeat("?, ", len(columns)-1)`, whose count is then `-1`, and hands
nothing to the driver, for every table and decorator. -/
theorem Insert_no_columns_faults (db : SqlDB) (tableName : String)
    (decorator : Option Decorator) :
    Insert db tableName [] [] decorator = ⟨Outcome.fault negativeRepeat, []⟩ := rfl

/-- C8: with no columns and no values `Update` hands the driver the text
`UPDATE <table> SET =? `, whose SET list holds one placeholder, with no params. -/
theorem Update_no_columns_placeholder (db : SqlDB) (tableName : String) :
    Update db tableName [] [] none =
        ⟨Outcome.ret (db.DB.Exec ("UPDATE " ++ tableName ++ " SET " ++ "=? ") []),
          [⟨"UPDATE " ++ tableName ++ " SET " ++ "=? ", []⟩]⟩ ∧
      placeholders "=? " = 1 ∧
      (Update db "test" [] [] none).calls = [⟨"UPDATE test SET =? ", []⟩] := by
  refine ⟨?_, by decide, rfl⟩
  simp only [Update, List.length_nil, ne_eq, not_true_eq_false, if_false, Join,
    String.append_empty]

/-! ## Select -/

/-- Counterexample of C9: the text handed to the driver is not the text with
three spaces before `LIMIT`. -/
theorem Select_example_three_spaces_false :
    (Select (sampleDB false []) testElem (Dest.ptrToSlice []) "test" ["id", "value"]
        (some whereLimit)).calls ≠
      [⟨"SELECT id, value FROM test  WHERE id = ?   LIMIT 10", [Value.int 1]⟩] := by
  decide

/-- C9, amended: for the decorator built by `Where("id = ?", 1)` then
`Limit(10, 0)`, `Select` on table `test` with columns `id`, `value` hands the
driver exactly the text with two spaces before `WHERE` and two spaces before
`LIMIT`, with params `[1]`, whatever the driver, element type and slice. -/
theorem Select_example_text {α : Type} (db : SqlDB) (et : ElemType α) (s : List α) :
    (Select db et (Dest.ptrToSlice s) "test" ["id", "value"] (some whereLimit)).calls =
      [⟨"SELECT id, value FROM test  WHERE id = ?  LIMIT 10", [Value.int 1]⟩] := rfl

theorem scanRows_all_scanned {α : Type} (et : ElemType α) (rows : List Row) (s : List α)
    (h : ∀ row ∈ rows, (et.StructScan row et.zero).2 = none) :
    scanRows et rows s = (none, s ++ rows.map (fun row => (et.StructScan row et.zero).1)) := by
  induction rows generalizing s with
  | nil => simp [scanRows]
  | cons row rest ih =>
    have h1 := h row (List.mem_cons_self row rest)
    rw [scanRows]
    cases hs : et.StructScan row et.zero with
    | mk elem err =>
      rw [hs] at h1
      simp only at h1
      subst h1
      simp only
      rw [ih _ (fun r hr => h r (List.mem_cons_of_mem row hr))]
      simp [hs, reflectAppend]

/-- Whenever `Select` returns, the destination is what it was before the call. -/
theorem Select_destination_unchanged {α : Type} (db : SqlDB) (et : ElemType α)
    (dest : Dest α) (tableName : String) (columns : List String)
    (decorator : Option Decorator) (e : GoError) (after : Dest α)
    (h : (Select db et dest tableName columns decorator).outcome = Outcome.ret (e, after)) :
    after = dest := by
  cases dest with
  | ptrToSlice s =>
    cases decorator with
    | none => simp [Select] at h
    | some d =>
      simp only [Select, Outcome.ret.injEq] at h
      split at h <;> simp only [Prod.mk.injEq] at h <;> exact h.2.symm
  | nilIface => simp only [Select, Outcome.ret.injEq, Prod.mk.injEq] at h; exact h.2.symm
  | notPtr => simp only [Select, Outcome.ret.injEq, Prod.mk.injEq] at h; exact h.2.symm
  | nilPtr => simp only [Select, Outcome.ret.injEq, Prod.mk.injEq] at h; exact h.2.symm
  | ptrToOther => simp only [Select, Outcome.ret.injEq, Prod.mk.injEq] at h; exact h.2.symm

/-- C1: on an empty `[]Test` destination and a driver result of one row, or of
two rows, that scan, `Select` returns nil and the destination is still empty,
while the loop built a slice of one element, or of two. -/
theorem Select_rows_not_stored :
    Select (sampleDB false [sampleRow]) testElem (Dest.ptrToSlice []) "test" ["id", "value"]
        (some whereId) =
      ⟨Outcome.ret (none, Dest.ptrToSlice []),
        [⟨"SELECT id, value FROM test  WHERE id =? ", [Value.int 1]⟩]⟩ ∧
    scanRows testElem [sampleRow] [] = (none, [⟨1, "name"⟩]) ∧
    Select (sampleDB false [sampleRow, sampleRow]) testElem (Dest.ptrToSlice []) "test"
        ["id", "value"] (some whereId) =
      ⟨Outcome.ret (none, Dest.ptrToSlice []),
        [⟨"SELECT id, value FROM test  WHERE id =? ", [Value.int 1]⟩]⟩ ∧
    scanRows testElem [sampleRow, sampleRow] [] = (none, [⟨1, "name"⟩, ⟨1, "name"⟩]) :=
  ⟨rfl, rfl, rfl, rfl⟩

/-! ## The decorator -/

theorem placeholders_append (a b : String) :
    placeholders (a ++ b) = placeholders a + placeholders b := by
  simp [placeholders, List.count_append]

theorem digitChar_ne_placeholder (d : Nat) : Nat.digitChar d ≠ '?' := by
  by_cases h : d < 16
  · interval_cases d <;> decide
  · have hstar : Nat.digitChar d = '*' := by
      unfold Nat.digitChar
      repeat rw [if_neg (by omega)]
    rw [hstar]
    decide

theorem toDigitsCore_count (fuel n : Nat) (ds : List Char) :
    (Nat.toDigitsCore 10 fuel n ds).count '?' = ds.count '?' := by
  induction fuel generalizing n ds with
  | zero => rfl
  | succ fuel ih =>
    rw [Nat.toDigitsCore]
    have hc : ∀ l : List Char, (Nat.digitChar (n % 10) :: l).count '?' = l.count '?' :=
      fun l => List.count_cons_of_ne (digitChar_ne_placeholder _).symm l
    split_ifs
    · exact hc ds
    · rw [ih, hc]

theorem placeholders_repr (n : Nat) : placeholders (Nat.repr n) = 0 := by
  simp [placeholders, Nat.repr, Nat.toDigits, List.asString, toDigitsCore_count]

theorem placeholders_formatInt (n : Int) : placeholders (formatInt n) = 0 := by
  cases n with
  | ofNat m => exact placeholders_repr m
  | negSucc m =>
    rw [formatInt, placeholders_append, placeholders_repr]
    rfl

theorem Decorator_call_decorator (d : Decorator) (c : Call) :
    (d.call c).decorator = d.decorator ++ c.fragment := by
  cases c with
  | Where cond params => rfl
  | GroupBy column => rfl
  | OrderBy column asc =>
    cases asc <;> simp [Decorator.call, Decorator.OrderBy, Call.fragment, String.append_assoc]
  | Limit limit1 limit2 =>
    by_cases h : limit2 > 0 <;>
      simp [Decorator.call, Decorator.Limit, Call.fragment, h, String.append_assoc]

theorem Decorator_call_params (d : Decorator) (c : Call) :
    (d.call c).params = d.params ++ c.params := by
  cases c with
  | Where cond params => rfl
  | GroupBy column => simp [Decorator.call, Decorator.GroupBy, Call.params]
  | OrderBy column asc =>
    cases asc <;> simp [Decorator.call, Decorator.OrderBy, Call.params]
  | Limit limit1 limit2 =>
    by_cases h : limit2 > 0 <;> simp [Decorator.call, Decorator.Limit, Call.params, h]

theorem Decorator_calls_decorator (d : Decorator) (cs : List Call) :
    (d.calls cs).decorator = d.decorator ++ concatAll (cs.map Call.fragment) := by
  induction cs generalizing d with
  | nil => simp [Decorator.calls, concatAll]
  | cons c rest ih =>
    have h : d.calls (c :: rest) = (d.call c).calls rest := rfl
    rw [h, ih, Decorator_call_decorator, List.map_cons, concatAll, String.append_assoc]

theorem Decorator_calls_params (d : Decorator) (cs : List Call) :
    (d.calls cs).params = d.params ++ (cs.map Call.params).flatten := by
  induction cs generalizing d with
  | nil => simp [Decorator.calls]
  | cons c rest ih =>
    have h : d.calls (c :: rest) = (d.call c).calls rest := rfl
    rw [h, ih, Decorator_call_params, List.map_cons, List.flatten_cons, List.append_assoc]

theorem placeholders_fragment (c : Call) (h : c.balanced) :
    placeholders c.fragment = c.params.length := by
  cases c with
  | Where cond params =>
    have h1 : placeholders cond = params.length := h
    simp only [Call.fragment, Call.params, placeholders_append, h1]
    have h2 : placeholders " WHERE " = 0 := by decide
    have h3 : placeholders " " = 0 := by decide
    omega
  | GroupBy column =>
    have h1 : placeholders column = 0 := h
    simp only [Call.fragment, Call.params, placeholders_append, h1, List.length_nil]
    have h2 : placeholders " GROUP BY " = 0 := by decide
    have h3 : placeholders " " = 0 := by decide
    omega
  | OrderBy column asc =>
    have h1 : placeholders column = 0 := h
    have h2 : placeholders " ORDER BY " = 0 := by decide
    have h3 : placeholders " " = 0 := by decide
    have h4 : placeholders "ASC " = 0 := by decide
    have h5 : placeholders "DESC " = 0 := by decide
    cases asc <;>
      simp [Call.fragment, Call.params, placeholders_append, h1, h2, h3, h4, h5]
  | Limit limit1 limit2 =>
    have h2 : placeholders " LIMIT " = 0 := by decide
    have h3 : placeholders ", " = 0 := by decide
    have h4 : placeholders "" = 0 := by decide
    by_cases hl : limit2 > 0 <;>
      simp [Call.fragment, Call.params, placeholders_append, placeholders_formatInt, h2, h3,
        h4, hl]

theorem placeholders_concatAll (cs : List Call) (h : ∀ c ∈ cs, c.balanced) :
    placeholders (concatAll (cs.map Call.fragment)) = (cs.map Call.params).flatten.length := by
  induction cs with
  | nil => decide
  | cons c rest ih =>
    rw [List.map_cons, concatAll, placeholders_append, List.map_cons, List.flatten_cons,
      List.length_append, placeholders_fragment c (h c (List.mem_cons_self c rest)),
      ih (fun x hx => h x (List.mem_cons_of_mem c hx))]

theorem concatAll_append (a b : List String) :
    concatAll (a ++ b) = concatAll a ++ concatAll b := by
  induction a with
  | nil => simp [concatAll]
  | cons x rest ih => simp [concatAll, ih, String.append_assoc]

/-- Counterexample of C4: after `Where("a = ? AND b = ?", 1)` on a fresh
decorator the text holds two placeholders and the params one value. -/
theorem Decorator_placeholders_unbalanced :
    placeholders (Decorator.fresh.calls [Call.Where "a = ? AND b = ?" [Value.int 1]]).decorator ≠
      (Decorator.fresh.calls [Call.Where "a = ? AND b = ?" [Value.int 1]]).params.length := by
  decide

/-- C4, amended: for every sequence of calls on a fresh decorator the text is
the concatenation of the calls' fragments in call order and the params are the
concatenation of the `Where` params in call order; when every call is balanced
(each `Where` condition holds as many `?` as it has params, no column name
holds a `?`), the text holds as many placeholders as there are params, and so
does the text after each first `k` calls against the params after these calls,
both being prefixes of the final text and params. -/
theorem Decorator_calls_positional (cs : List Call) :
    (Decorator.fresh.calls cs).decorator = concatAll (cs.map Call.fragment) ∧
      (Decorator.fresh.calls cs).params = (cs.map Call.params).flatten ∧
      ((∀ c ∈ cs, c.balanced) →
        placeholders (Decorator.fresh.calls cs).decorator =
          (Decorator.fresh.calls cs).params.length ∧
        ∀ k, placeholders (Decorator.fresh.calls (cs.take k)).decorator =
            (Decorator.fresh.calls (cs.take k)).params.length ∧
          (Decorator.fresh.calls (cs.take k)).decorator.data <+:
            (Decorator.fresh.calls cs).decorator.data ∧
          (Decorator.fresh.calls (cs.take k)).params <+: (Decorator.fresh.calls cs).params) := by
  have hd : ∀ l : List Call,
      (Decorator.fresh.calls l).decorator = concatAll (l.map Call.fragment) := by
    intro l
    rw [Decorator_calls_decorator]
    exact String.empty_append _
  have hp : ∀ l : List Call, (Decorator.fresh.calls l).params = (l.map Call.params).flatten := by
    intro l
    rw [Decorator_calls_params]
    rfl
  refine ⟨hd cs, hp cs, fun hb => ⟨?_, fun k => ⟨?_, ?_, ?_⟩⟩⟩
  · rw [hd, hp]
    exact placeholders_concatAll cs hb
  · rw [hd, hp]
    exact placeholders_concatAll _ (fun c hc => hb c (List.mem_of_mem_take hc))
  · rw [hd, hd]
    refine ⟨(concatAll ((cs.drop k).map Call.fragment)).data, ?_⟩
    rw [← String.data_append, ← concatAll_append, ← List.map_append, List.take_append_drop]
  · rw [hp, hp]
    refine ⟨((cs.drop k).map Call.params).flatten, ?_⟩
    rw [← List.flatten_append, ← List.map_append, List.take_append_drop]

/-- Witness of C4: `Where("id = ?", 1)`, `OrderBy("id", true)`, `Limit(10, 5)`. -/
theorem Decorator_calls_positional_witness :
    (∀ c ∈ [Call.Where "id = ?" [Value.int 1], Call.OrderBy "id" true, Call.Limit 10 5],
        c.balanced) ∧
      placeholders (Decorator.fresh.calls
          [Call.Where "id = ?" [Value.int 1], Call.OrderBy "id" true, Call.Limit 10 5]).decorator =
        (Decorator.fresh.calls
          [Call.Where "id = ?" [Value.int 1], Call.OrderBy "id" true, Call.Limit 10 5]).params.length :=
  ⟨by decide,
    ((Decorator_calls_positional
      [Call.Where "id = ?" [Value.int 1], Call.OrderBy "id" true, Call.Limit 10 5]).2.2
        (by decide)).1⟩

end Sqldb
